import Mathlib

/-!
# Verification of the event-coincidence-analysis engine (`eca.py`)

A shallow embedding of the engine in `src/eca.py`:

* a data panel is a list of named columns of optional integer cells
  (a missing cell models a pandas `NaN`);
* `binarySeries` embeds `_binary_series` (`fillna(0).astype(int)`);
* `compute_coincidence_summary`, `monte_carlo_coincidences`,
  `run_event_coincidence_analysis` and `batch_event_coincidence` follow the
  Python functions of the same names; column lookup failure (pandas
  `KeyError`) is an explicit `Except` error;
* floating-point results (`p_value`, conditional rates, the null-distribution
  mean) are embedded as exact rationals, with pandas/numpy `NaN` rendered as
  `Option.none`; the integer-valued quantities the floats carry are small
  enough that the embedding is exact;
* numpy's seeded generator (`np.random.default_rng`) cannot be reproduced
  bit-for-bit here; it is modelled by an explicit deterministic generator
  (`lcg`): `rng.permutation` becomes a seeded selection shuffle (`permDraw`)
  that provably produces a permutation of its input and threads the generator
  state, and `rng.integers(0, 2**32 - 1, ...)` becomes `subSeeds`.  Passing
  `random_state=None` in Python seeds the generator from OS entropy; the
  embedding takes the resolved seed as a `Nat`, so a universally quantified
  seed covers both the explicit-seed and the entropy case.
-/

/-- Model of a deterministic seeded pseudo-random generator step
(stands in for numpy's PCG64 state transition). -/
def lcg (s : Nat) : Nat := (6364136223846793005 * s + 1442695040888963407) % 2 ^ 64

/-- Model of `np.random.default_rng(seed)`: derive the initial generator
state from the seed. -/
def rngInit (seed : Nat) : Nat := lcg seed

/-- `_binary_series`: `pd.Series(series).fillna(0).astype(int)` — every
missing cell becomes 0, every present cell is kept as its integer value. -/
def binarySeries (l : List (Option Int)) : List Int :=
  l.map (fun o => o.getD 0)

/-- `np.dot` on two equal-length integer vectors (the embedding truncates to
the shorter length; all call sites use equal-length panel columns). -/
def dotInt : List Int → List Int → Int
  | [], _ => 0
  | _, [] => 0
  | a :: as, b :: bs => a * b + dotInt as bs

/-- An event panel: named columns of optional integer cells.  Models the
`pd.DataFrame` the engine receives. -/
structure Panel where
  cols : List (String × List (Option Int))
deriving DecidableEq

/-- Column lookup, `df[name]`; `none` models the pandas `KeyError`. -/
def Panel.find? (df : Panel) (c : String) : Option (List (Option Int)) :=
  (df.cols.find? (fun p => p.1 = c)).map Prod.snd

/-- `df.columns` as a list of names. -/
def Panel.columnNames (df : Panel) : List String :=
  df.cols.map Prod.fst

/-- Errors the engine surfaces to the caller.  The only failure in the code
is the pandas `KeyError` on a missing column. -/
inductive ECAError where
  | missingColumn (name : String)
deriving DecidableEq

/-- The `np.divide(joint, total, out=nan-array, where=total > 0)` idiom:
`none` models the NaN kept when `total > 0` fails. -/
def safeRate (joint total : Int) : Option ℚ :=
  if 0 < total then some ((joint : ℚ) / (total : ℚ)) else none

/-- The dictionary returned by `compute_coincidence_summary`. -/
structure Summary where
  coincidences : Int
  totalA : Int
  totalB : Int
  rateA : Option ℚ
  rateB : Option ℚ
deriving DecidableEq

/-- `compute_coincidence_summary(df, event_a, event_b)`. -/
def compute_coincidence_summary (df : Panel) (event_a event_b : String) :
    Except ECAError Summary :=
  match df.find? event_a with
  | none => .error (.missingColumn event_a)
  | some ca =>
    match df.find? event_b with
    | none => .error (.missingColumn event_b)
    | some cb =>
      let a := binarySeries ca
      let b := binarySeries cb
      let coincidences := dotInt a b
      let totalA := a.sum
      let totalB := b.sum
      .ok { coincidences := coincidences
            totalA := totalA
            totalB := totalB
            rateA := safeRate coincidences totalA
            rateB := safeRate coincidences totalB }

/-- One draw of `rng.permutation(l)`: a seeded selection shuffle.  Returns
the permuted list and the advanced generator state. -/
def permDraw (s : Nat) (l : List Int) : List Int × Nat :=
  if h : l = [] then ([], s)
  else
    have hn : 0 < l.length := List.length_pos.mpr h
    let i := s % l.length
    have hi : i < l.length := Nat.mod_lt _ hn
    let rest := l.eraseIdx i
    have hlen : rest.length < l.length := by
      show (l.eraseIdx i).length < l.length
      have := List.length_eraseIdx_add_one hi
      omega
    let p := permDraw (lcg s) rest
    (l.get ⟨i, hi⟩ :: p.1, p.2)
termination_by l.length

/-- The generator expression inside `monte_carlo_coincidences`:
`np.dot(a, rng.permutation(b))` for each of `n` trials, threading the
generator state across trials. -/
def mcTrials (a b : List Int) : Nat → Nat → List Int
  | 0, _ => []
  | n + 1, s =>
    let p := permDraw s b
    dotInt a p.1 :: mcTrials a b n p.2

/-- `monte_carlo_coincidences(df, event_a, event_b, simulations, random_state)`. -/
def monte_carlo_coincidences (df : Panel) (event_a event_b : String)
    (simulations : Nat) (random_state : Nat) : Except ECAError (List Int) :=
  match df.find? event_a with
  | none => .error (.missingColumn event_a)
  | some ca =>
    match df.find? event_b with
    | none => .error (.missingColumn event_b)
    | some cb =>
      .ok (mcTrials (binarySeries ca) (binarySeries cb) simulations
            (rngInit random_state))

/-- The dictionary returned by `run_event_coincidence_analysis`.
`expected` is `float(np.mean(sims))`, NaN (`none`) on an empty array. -/
structure ECAResult where
  summary : Summary
  sims : List Int
  p_value : ℚ
  expected : Option ℚ
deriving DecidableEq

/-- `run_event_coincidence_analysis(df, event_a, event_b, simulations,
random_state)`. -/
def run_event_coincidence_analysis (df : Panel) (event_a event_b : String)
    (simulations : Nat) (random_state : Nat) : Except ECAError ECAResult :=
  match compute_coincidence_summary df event_a event_b with
  | .error e => .error e
  | .ok summary =>
    match monte_carlo_coincidences df event_a event_b simulations random_state with
    | .error e => .error e
    | .ok sims =>
      let observed := summary.coincidences
      let geCount := sims.countP (fun x => decide (observed ≤ x))
      .ok { summary := summary
            sims := sims
            p_value := ((geCount : ℚ) + 1) / ((simulations : ℚ) + 1)
            expected :=
              if sims.length = 0 then none
              else some ((sims.sum : ℚ) / (sims.length : ℚ)) }

/-- `rng.integers(0, 2**32 - 1, size=n, dtype=np.uint32)`: `n` draws from the
master generator, each reduced into `[0, 2^32 - 2]` (the upper bound is
exclusive in numpy). -/
def subSeeds (s : Nat) : Nat → List Nat
  | 0 => []
  | n + 1 => lcg s % (2 ^ 32 - 1) :: subSeeds (lcg s) n

/-- `results[event] = value` on a Python dict modelled as an ordered
association list: overwrite in place when the key exists, append otherwise. -/
def dictInsert (m : List (String × ECAResult)) (k : String) (v : ECAResult) :
    List (String × ECAResult) :=
  if m.any (fun p => p.1 = k) then
    m.map (fun p => if p.1 = k then (k, v) else p)
  else m ++ [(k, v)]

/-- The `for index, event in enumerate(events)` loop of
`batch_event_coincidence`, with each event already paired to its sub-seed. -/
def batchLoop (df : Panel) (base_event : String) (simulations : Nat) :
    List (String × Nat) → List (String × ECAResult) →
    Except ECAError (List (String × ECAResult))
  | [], acc => .ok acc
  | (e, sd) :: rest, acc =>
    match run_event_coincidence_analysis df base_event e simulations sd with
    | .error err => .error err
    | .ok r => batchLoop df base_event simulations rest (dictInsert acc e r)

/-- `batch_event_coincidence(df, base_event, other_events, simulations,
random_state)`.  `other_events or [...]` is Python truthiness: `None` and the
empty list both fall back to every panel column other than the base event. -/
def batch_event_coincidence (df : Panel) (base_event : String)
    (other_events : Option (List String)) (simulations : Nat)
    (random_state : Nat) : Except ECAError (List (String × ECAResult)) :=
  let fallback := df.columnNames.filter (fun c => c ≠ base_event)
  let events := match other_events with
    | some l => if l.isEmpty then fallback else l
    | none => fallback
  let seeds := subSeeds (rngInit random_state) events.length
  batchLoop df base_event simulations (events.zip seeds) []

/-- A binary series: every entry is 0 or 1 (the panel invariant of §3 of the
specification, assumed, not validated, by the engine). -/
def isBin (l : List Int) : Prop := ∀ x ∈ l, x = 0 ∨ x = 1

instance (l : List Int) : Decidable (isBin l) :=
  inferInstanceAs (Decidable (∀ x ∈ l, x = 0 ∨ x = 1))

/-- A small concrete panel (two aligned binary event columns, one missing
cell) used to instantiate the theorems below. -/
def demoPanel : Panel :=
  { cols := [("Outbreak", [some 1, some 0, some 1, none]),
             ("Climatic", [some 1, some 1, some 0, some 0])] }

/-- A concrete panel whose base column has no 1-entries. -/
def zeroPanel : Panel :=
  { cols := [("Outbreak", [some 0, none, some 0, some 0]),
             ("Climatic", [some 1, some 0, some 1, some 0])] }

/-- A concrete panel with no column other than the base event. -/
def soloPanel : Panel :=
  { cols := [("Outbreak", [some 1, some 0])] }

/-! ## Helper lemmas about the embedded operations -/

theorem dotInt_comm (a b : List Int) : dotInt a b = dotInt b a := by
  induction a generalizing b with
  | nil => cases b <;> simp [dotInt]
  | cons x xs ih =>
    cases b with
    | nil => simp [dotInt]
    | cons y ys => simp [dotInt, ih, Int.mul_comm]

theorem isBin_tail {x : Int} {xs : List Int} (h : isBin (x :: xs)) : isBin xs :=
  fun z hz => h z (List.mem_cons_of_mem x hz)

theorem isBin_head {x : Int} {xs : List Int} (h : isBin (x :: xs)) :
    x = 0 ∨ x = 1 :=
  h x (List.mem_cons_self x xs)

theorem sum_nonneg_of_isBin {l : List Int} (h : isBin l) : 0 ≤ l.sum := by
  induction l with
  | nil => simp
  | cons x xs ih =>
    have hx := isBin_head h
    have := ih (isBin_tail h)
    simp only [List.sum_cons]
    rcases hx with h0 | h1
    · omega
    · omega

theorem dotInt_nonneg {a b : List Int} (ha : isBin a) (hb : isBin b) :
    0 ≤ dotInt a b := by
  induction a generalizing b with
  | nil => simp [dotInt]
  | cons x xs ih =>
    cases b with
    | nil => simp [dotInt]
    | cons y ys =>
      have hx := isBin_head ha
      have hy := isBin_head hb
      have hrest := ih (isBin_tail ha) (isBin_tail hb)
      have hxy : 0 ≤ x * y := by
        rcases hx with rfl | rfl <;> rcases hy with rfl | rfl <;> norm_num
      simp only [dotInt]
      omega

theorem dotInt_le_sum_left {a b : List Int} (ha : isBin a) (hb : isBin b) :
    dotInt a b ≤ a.sum := by
  induction a generalizing b with
  | nil => simp [dotInt]
  | cons x xs ih =>
    have hxs : isBin xs := isBin_tail ha
    cases b with
    | nil =>
      have hx := isBin_head ha
      have := sum_nonneg_of_isBin hxs
      simp only [dotInt, List.sum_cons]
      rcases hx with h0 | h1
      · omega
      · omega
    | cons y ys =>
      have hx := isBin_head ha
      have hy := isBin_head hb
      have hrest := ih hxs (isBin_tail hb)
      have hxy : x * y ≤ x := by
        rcases hx with rfl | rfl <;> rcases hy with rfl | rfl <;> norm_num
      simp only [dotInt, List.sum_cons]
      omega

theorem dotInt_le_sum_right {a b : List Int} (ha : isBin a) (hb : isBin b) :
    dotInt a b ≤ b.sum := by
  rw [dotInt_comm]
  exact dotInt_le_sum_left hb ha

theorem eq_zero_of_isBin_sum_eq_zero {l : List Int} (h : isBin l)
    (hs : l.sum = 0) : ∀ x ∈ l, x = 0 := by
  induction l with
  | nil => simp
  | cons x xs ih =>
    have hx := isBin_head h
    have hxs : isBin xs := isBin_tail h
    have hsum := sum_nonneg_of_isBin hxs
    have hx0 : x = 0 ∧ xs.sum = 0 := by
      rcases hx with h0 | h1
      · constructor
        · exact h0
        · simp [h0] at hs; exact hs
      · exfalso; simp [h1] at hs; omega
    intro y hy
    rcases List.mem_cons.mp hy with rfl | hmem
    · exact hx0.1
    · exact ih hxs hx0.2 y hmem

theorem dotInt_eq_zero_left {a : List Int} (b : List Int)
    (h : ∀ x ∈ a, x = 0) : dotInt a b = 0 := by
  induction a generalizing b with
  | nil => simp [dotInt]
  | cons x xs ih =>
    cases b with
    | nil => simp [dotInt]
    | cons y ys =>
      have hx : x = 0 := h x (List.mem_cons_self x xs)
      simp [dotInt, hx, ih ys (fun z hz => h z (List.mem_cons_of_mem x hz))]

theorem dotInt_eq_zero_right (a : List Int) {b : List Int}
    (h : ∀ x ∈ b, x = 0) : dotInt a b = 0 := by
  rw [dotInt_comm]; exact dotInt_eq_zero_left a h

theorem get_cons_eraseIdx_perm (l : List Int) (i : Nat) (hi : i < l.length) :
    (l.get ⟨i, hi⟩ :: l.eraseIdx i).Perm l := by
  induction l generalizing i with
  | nil => simp at hi
  | cons x xs ih =>
    cases i with
    | zero => simp
    | succ j =>
      have hj : j < xs.length := by simpa using hi
      have step : (xs.get ⟨j, hj⟩ :: x :: xs.eraseIdx j).Perm
          (x :: xs.get ⟨j, hj⟩ :: xs.eraseIdx j) :=
        List.Perm.swap x (xs.get ⟨j, hj⟩) (xs.eraseIdx j)
      have tail : (x :: xs.get ⟨j, hj⟩ :: xs.eraseIdx j).Perm (x :: xs) :=
        List.Perm.cons x (ih j hj)
      simpa [List.eraseIdx] using step.trans tail

theorem permDraw_fst_perm_aux :
    ∀ (n : Nat) (s : Nat) (l : List Int), l.length ≤ n → (permDraw s l).1.Perm l := by
  intro n
  induction n with
  | zero =>
    intro s l hl
    have : l = [] := List.length_eq_zero.mp (Nat.le_zero.mp hl)
    subst this
    simp [permDraw]
  | succ n ih =>
    intro s l hl
    by_cases h : l = []
    · subst h; simp [permDraw]
    · rw [permDraw]
      simp only [dif_neg h]
      have hn : 0 < l.length := List.length_pos.mpr h
      have hi : s % l.length < l.length := Nat.mod_lt _ hn
      have hrest : (l.eraseIdx (s % l.length)).length ≤ n := by
        have := List.length_eraseIdx_add_one hi
        omega
      exact (List.Perm.cons _ (ih (lcg s) _ hrest)).trans
        (get_cons_eraseIdx_perm l _ hi)

theorem permDraw_fst_perm (s : Nat) (l : List Int) : (permDraw s l).1.Perm l :=
  permDraw_fst_perm_aux l.length s l le_rfl

theorem mcTrials_length (a b : List Int) (n s : Nat) :
    (mcTrials a b n s).length = n := by
  induction n generalizing s with
  | zero => simp [mcTrials]
  | succ n ih => simp [mcTrials, ih]

theorem mcTrials_mem {a b : List Int} {n s : Nat} {x : Int}
    (hx : x ∈ mcTrials a b n s) : ∃ c : List Int, c.Perm b ∧ x = dotInt a c := by
  induction n generalizing s with
  | zero => simp [mcTrials] at hx
  | succ n ih =>
    simp only [mcTrials, List.mem_cons] at hx
    rcases hx with rfl | hmem
    · exact ⟨(permDraw s b).1, permDraw_fst_perm s b, rfl⟩
    · exact ih hmem

theorem isBin_of_perm {l m : List Int} (h : l.Perm m) (hm : isBin m) :
    isBin l :=
  fun x hx => hm x (h.mem_iff.mp hx)

theorem subSeeds_length (s n : Nat) : (subSeeds s n).length = n := by
  induction n generalizing s with
  | zero => simp [subSeeds]
  | succ n ih => simp [subSeeds, ih]

theorem dictInsert_of_fresh {m : List (String × ECAResult)} {k : String}
    (v : ECAResult) (h : ∀ p ∈ m, p.1 ≠ k) :
    dictInsert m k v = m ++ [(k, v)] := by
  have hany : m.any (fun p => p.1 = k) = false := by
    rw [List.any_eq_false]
    intro p hp
    simpa using h p hp
  simp [dictInsert, hany]

/-- If the loop of `batch_event_coincidence` succeeds on pairwise-distinct
event names that avoid the accumulator, each event's pairwise result is the
direct `run_event_coincidence_analysis` call with that event's sub-seed, and
results are appended in input order. -/
theorem batchLoop_ok_structure (df : Panel) (base_event : String)
    (simulations : Nat) :
    ∀ (pairs : List (String × Nat)) (acc m : List (String × ECAResult)),
      batchLoop df base_event simulations pairs acc = .ok m →
      (pairs.map Prod.fst).Nodup →
      (∀ p ∈ pairs, ∀ q ∈ acc, p.1 ≠ q.1) →
      ∃ rs : List ECAResult,
        rs.length = pairs.length ∧
        m = acc ++ (pairs.map Prod.fst).zip rs ∧
        ∀ j p, pairs.get? j = some p →
          ∃ r, rs.get? j = some r ∧
            run_event_coincidence_analysis df base_event p.1 simulations p.2 =
              .ok r := by
  intro pairs
  induction pairs with
  | nil =>
    intro acc m hok _ _
    refine ⟨[], by simp, ?_, by simp⟩
    simp [batchLoop] at hok
    simp [hok.symm]
  | cons hd tl ih =>
    intro acc m hok hnd hdisj
    obtain ⟨e, sd⟩ := hd
    simp only [batchLoop] at hok
    cases hrun : run_event_coincidence_analysis df base_event e simulations sd with
    | error err => rw [hrun] at hok; exact absurd hok (by simp)
    | ok r =>
      rw [hrun] at hok
      dsimp only at hok
      have hfresh : ∀ p ∈ acc, p.1 ≠ e := by
        intro p hp
        exact fun he => hdisj (e, sd) (by simp) p hp he.symm
      rw [dictInsert_of_fresh r hfresh] at hok
      have hnd2 : (tl.map Prod.fst).Nodup := by
        simpa using hnd.of_cons
      have hdisj2 : ∀ p ∈ tl, ∀ q ∈ acc ++ [(e, r)], p.1 ≠ q.1 := by
        intro p hp q hq
        rcases List.mem_append.mp hq with hq1 | hq2
        · exact hdisj p (List.mem_cons_of_mem _ hp) q hq1
        · have hq3 : q = (e, r) := by simpa using hq2
        -- the head name does not recur in the tail, by Nodup
          subst hq3
          have : e ∉ tl.map Prod.fst := by
            have := hnd
            simp only [List.map_cons, List.nodup_cons] at this
            exact this.1
          intro hpe
          exact this (by
            have : p.1 ∈ tl.map Prod.fst := List.mem_map_of_mem Prod.fst hp
            simpa [hpe] using this)
      obtain ⟨rs, hlen, hm, hidx⟩ := ih (acc ++ [(e, r)]) m hok hnd2 hdisj2
      refine ⟨r :: rs, by simp [hlen], ?_, ?_⟩
      · rw [hm]
        simp [List.zip_cons_cons, List.append_assoc]
      · intro j p hp
        cases j with
        | zero =>
          simp only [List.get?_cons_zero, Option.some_inj] at hp
          subst hp
          exact ⟨r, by simp, hrun⟩
        | succ j =>
          simp only [List.get?_cons_succ] at hp ⊢
          exact hidx j p hp

/-- Evaluation of `compute_coincidence_summary` when both columns resolve. -/
theorem compute_coincidence_summary_eq {df : Panel} {a b : String}
    {ca cb : List (Option Int)} (ha : df.find? a = some ca)
    (hb : df.find? b = some cb) :
    compute_coincidence_summary df a b = .ok
      { coincidences := dotInt (binarySeries ca) (binarySeries cb)
        totalA := (binarySeries ca).sum
        totalB := (binarySeries cb).sum
        rateA := safeRate (dotInt (binarySeries ca) (binarySeries cb))
          (binarySeries ca).sum
        rateB := safeRate (dotInt (binarySeries ca) (binarySeries cb))
          (binarySeries cb).sum } := by
  simp [compute_coincidence_summary, ha, hb]

theorem compute_coincidence_summary_missing_left {df : Panel} {a : String}
    (b : String) (ha : df.find? a = none) :
    compute_coincidence_summary df a b = .error (.missingColumn a) := by
  simp [compute_coincidence_summary, ha]

theorem compute_coincidence_summary_missing_right {df : Panel} {b : String}
    {ca : List (Option Int)} (a : String) (ha : df.find? a = some ca)
    (hb : df.find? b = none) :
    compute_coincidence_summary df a b = .error (.missingColumn b) := by
  simp [compute_coincidence_summary, ha, hb]

/-- Evaluation of `monte_carlo_coincidences` when both columns resolve. -/
theorem monte_carlo_coincidences_eq {df : Panel} {a b : String}
    {ca cb : List (Option Int)} (n s : Nat) (ha : df.find? a = some ca)
    (hb : df.find? b = some cb) :
    monte_carlo_coincidences df a b n s =
      .ok (mcTrials (binarySeries ca) (binarySeries cb) n (rngInit s)) := by
  simp [monte_carlo_coincidences, ha, hb]

theorem monte_carlo_coincidences_missing_left {df : Panel} {a : String}
    (b : String) (n s : Nat) (ha : df.find? a = none) :
    monte_carlo_coincidences df a b n s = .error (.missingColumn a) := by
  simp [monte_carlo_coincidences, ha]

theorem monte_carlo_coincidences_missing_right {df : Panel} {b : String}
    {ca : List (Option Int)} (a : String) (n s : Nat)
    (ha : df.find? a = some ca) (hb : df.find? b = none) :
    monte_carlo_coincidences df a b n s = .error (.missingColumn b) := by
  simp [monte_carlo_coincidences, ha, hb]

/-- Evaluation of `run_event_coincidence_analysis` when both columns resolve:
the summary, the null distribution, the smoothed one-sided p-value and the
null-distribution mean, exactly as assembled by the code. -/
theorem run_event_coincidence_analysis_eq {df : Panel} {a b : String}
    {ca cb : List (Option Int)} (n s : Nat) (ha : df.find? a = some ca)
    (hb : df.find? b = some cb) :
    run_event_coincidence_analysis df a b n s = .ok
      { summary :=
          { coincidences := dotInt (binarySeries ca) (binarySeries cb)
            totalA := (binarySeries ca).sum
            totalB := (binarySeries cb).sum
            rateA := safeRate (dotInt (binarySeries ca) (binarySeries cb))
              (binarySeries ca).sum
            rateB := safeRate (dotInt (binarySeries ca) (binarySeries cb))
              (binarySeries cb).sum }
        sims := mcTrials (binarySeries ca) (binarySeries cb) n (rngInit s)
        p_value :=
          (((mcTrials (binarySeries ca) (binarySeries cb) n
              (rngInit s)).countP
              (fun x => decide (dotInt (binarySeries ca) (binarySeries cb) ≤ x)) : ℚ)
            + 1) / ((n : ℚ) + 1)
        expected :=
          if (mcTrials (binarySeries ca) (binarySeries cb) n (rngInit s)).length = 0
          then none
          else some
            (((mcTrials (binarySeries ca) (binarySeries cb) n (rngInit s)).sum : ℚ) /
                    ((mcTrials (binarySeries ca) (binarySeries cb) n
                  (rngInit s)).length : ℚ)) } := by
  rw [run_event_coincidence_analysis, compute_coincidence_summary_eq ha hb,
    monte_carlo_coincidences_eq n s ha hb]

theorem dot_zero_of_total_zero {A B c : List Int} (hA : isBin A) (hB : isBin B)
    (hz : A.sum = 0 ∨ B.sum = 0) (hperm : c.Perm B) : dotInt A c = 0 := by
  rcases hz with hzA | hzB
  · exact dotInt_eq_zero_left c (eq_zero_of_isBin_sum_eq_zero hA hzA)
  · refine dotInt_eq_zero_right A ?_
    intro x hx
    exact eq_zero_of_isBin_sum_eq_zero hB hzB x (hperm.mem_iff.mp hx)

/-! ## The claims -/

/-- C8: for two equal-length binary event columns, the observed joint count
is symmetric: summarising `(A, B)` and `(B, A)` yields the same
`coincidences` value. -/
theorem C8_joint_symmetric {df : Panel} {a b : String}
    {ca cb : List (Option Int)} (ha : df.find? a = some ca)
    (hb : df.find? b = some cb) (hlen : ca.length = cb.length) :
    ∃ sab sba, compute_coincidence_summary df a b = .ok sab ∧
      compute_coincidence_summary df b a = .ok sba ∧
      sab.coincidences = sba.coincidences := by
  refine ⟨_, _, compute_coincidence_summary_eq ha hb,
    compute_coincidence_summary_eq hb ha, ?_⟩
  exact dotInt_comm _ _

/-- Witness for C8 on the concrete demo panel. -/
theorem C8_joint_symmetric_witness :
    ∃ sab sba, compute_coincidence_summary demoPanel "Outbreak" "Climatic" = .ok sab ∧
      compute_coincidence_summary demoPanel "Climatic" "Outbreak" = .ok sba ∧
      sab.coincidences = sba.coincidences :=
  @C8_joint_symmetric demoPanel "Outbreak" "Climatic"
    [some 1, some 0, some 1, none] [some 1, some 1, some 0, some 0] rfl rfl rfl

/-- C9: a requested event column absent from the panel makes both
`compute_coincidence_summary` and `monte_carlo_coincidences` fail with a
missing-column error (never an `ok` result built from an all-zero series). -/
theorem C9_missing_column_fails (df : Panel) (a b : String) (n s : Nat) :
    (df.find? a = none →
      compute_coincidence_summary df a b = .error (.missingColumn a) ∧
      monte_carlo_coincidences df a b n s = .error (.missingColumn a)) ∧
    (∀ ca, df.find? a = some ca → df.find? b = none →
      compute_coincidence_summary df a b = .error (.missingColumn b) ∧
      monte_carlo_coincidences df a b n s = .error (.missingColumn b)) := by
  constructor
  · intro ha
    exact ⟨compute_coincidence_summary_missing_left b ha,
      monte_carlo_coincidences_missing_left b n s ha⟩
  · intro ca ha hb
    exact ⟨compute_coincidence_summary_missing_right a ha hb,
      monte_carlo_coincidences_missing_right a n s ha hb⟩

/-- Witness for C9: the demo panel has no column named `Missing`. -/
theorem C9_missing_column_fails_witness :
    compute_coincidence_summary demoPanel "Missing" "Climatic" =
      .error (.missingColumn "Missing") ∧
    monte_carlo_coincidences demoPanel "Missing" "Climatic" 3 0 =
      .error (.missingColumn "Missing") :=
  (C9_missing_column_fails demoPanel "Missing" "Climatic" 3 0).1 rfl

/-- C4: the conditional rates: NaN (`none`), with no exception, exactly when
the corresponding total is 0; the quotient of the joint count by the total
when the total is positive. -/
theorem C4_conditional_rates {df : Panel} {a b : String}
    {ca cb : List (Option Int)} (ha : df.find? a = some ca)
    (hb : df.find? b = some cb) :
    ∃ s, compute_coincidence_summary df a b = .ok s ∧
      (s.totalA = 0 → s.rateA = none) ∧
      (0 < s.totalA → s.rateA = some ((s.coincidences : ℚ) / (s.totalA : ℚ))) ∧
      (s.totalB = 0 → s.rateB = none) ∧
      (0 < s.totalB → s.rateB = some ((s.coincidences : ℚ) / (s.totalB : ℚ))) := by
  refine ⟨_, compute_coincidence_summary_eq ha hb, ?_, ?_, ?_, ?_⟩ <;>
    intro h <;> simp_all [safeRate]

/-- Witness for C4 on the concrete demo panel (both totals positive) and the
degenerate panel (base total 0). -/
theorem C4_conditional_rates_witness :
    (∃ s, compute_coincidence_summary demoPanel "Outbreak" "Climatic" = .ok s ∧
      (s.totalA = 0 → s.rateA = none) ∧
      (0 < s.totalA → s.rateA = some ((s.coincidences : ℚ) / (s.totalA : ℚ))) ∧
      (s.totalB = 0 → s.rateB = none) ∧
      (0 < s.totalB → s.rateB = some ((s.coincidences : ℚ) / (s.totalB : ℚ)))) ∧
    (∃ s, compute_coincidence_summary zeroPanel "Outbreak" "Climatic" = .ok s ∧
      (s.totalA = 0 → s.rateA = none) ∧
      (0 < s.totalA → s.rateA = some ((s.coincidences : ℚ) / (s.totalA : ℚ))) ∧
      (s.totalB = 0 → s.rateB = none) ∧
      (0 < s.totalB → s.rateB = some ((s.coincidences : ℚ) / (s.totalB : ℚ)))) :=
  ⟨@C4_conditional_rates demoPanel "Outbreak" "Climatic"
      [some 1, some 0, some 1, none] [some 1, some 1, some 0, some 0] rfl rfl,
   @C4_conditional_rates zeroPanel "Outbreak" "Climatic"
      [some 0, none, some 0, some 0] [some 1, some 0, some 1, some 0] rfl rfl⟩

/-- C6: the pairwise analysis is a deterministic function of the panel, the
column names, the simulation count and the seed: two calls with identical
arguments yield identical null distributions, p-values, and results. -/
theorem C6_reproducible {df : Panel} {a b : String} {N s : Nat}
    {r1 r2 : ECAResult}
    (h1 : run_event_coincidence_analysis df a b N s = .ok r1)
    (h2 : run_event_coincidence_analysis df a b N s = .ok r2) :
    r1.sims = r2.sims ∧ r1.p_value = r2.p_value ∧ r1 = r2 := by
  rw [h1] at h2
  cases h2
  exact ⟨rfl, rfl, rfl⟩

/-- Witness for C6: two evaluations of the same concrete call coincide. -/
theorem C6_reproducible_witness :
    ∃ r1 r2, run_event_coincidence_analysis demoPanel "Outbreak" "Climatic" 2 5 = .ok r1 ∧
      run_event_coincidence_analysis demoPanel "Outbreak" "Climatic" 2 5 = .ok r2 ∧
      r1.sims = r2.sims ∧ r1.p_value = r2.p_value ∧ r1 = r2 := by
  obtain ⟨r, hr⟩ : ∃ r,
      run_event_coincidence_analysis demoPanel "Outbreak" "Climatic" 2 5 = .ok r :=
    ⟨_, rfl⟩
  exact ⟨r, r, hr, hr, C6_reproducible hr hr⟩

theorem p_value_bounds (c N : Nat) (hcN : c ≤ N) :
    1 / ((N : ℚ) + 1) ≤ ((c : ℚ) + 1) / ((N : ℚ) + 1) ∧
      ((c : ℚ) + 1) / ((N : ℚ) + 1) ≤ 1 := by
  have hpos : (0 : ℚ) < (N : ℚ) + 1 := by positivity
  constructor
  · gcongr
    have : (0 : ℚ) ≤ (c : ℚ) := Nat.cast_nonneg c
    linarith
  · rw [div_le_one hpos]
    have : (c : ℚ) ≤ (N : ℚ) := by exact_mod_cast hcN
    linarith

/-- C1: for any panel, resolvable column pair and `N > 0` simulations, the
p-value equals `(#{null values ≥ observed} + 1) / (N + 1)`, hence lies in
`[1/(N+1), 1]` and is never 0. -/
theorem C1_p_value_formula_and_range {df : Panel} {a b : String}
    {ca cb : List (Option Int)} {N s : Nat} (hN : 0 < N)
    (ha : df.find? a = some ca) (hb : df.find? b = some cb) :
    ∃ r, run_event_coincidence_analysis df a b N s = .ok r ∧
      r.p_value = ((r.sims.countP
          (fun x => decide (r.summary.coincidences ≤ x)) : ℚ) + 1) /
        ((N : ℚ) + 1) ∧
      1 / ((N : ℚ) + 1) ≤ r.p_value ∧ r.p_value ≤ 1 := by
  have hcle : (mcTrials (binarySeries ca) (binarySeries cb) N
        (rngInit s)).countP
        (fun x => decide (dotInt (binarySeries ca) (binarySeries cb) ≤ x)) ≤ N :=
    (List.countP_le_length _).trans
      (mcTrials_length (binarySeries ca) (binarySeries cb) N (rngInit s)).le
  refine ⟨_, run_event_coincidence_analysis_eq N s ha hb, rfl, ?_, ?_⟩
  · exact (p_value_bounds _ N hcle).1
  · exact (p_value_bounds _ N hcle).2

/-- Witness for C1 on the concrete demo panel with `N = 3`. -/
theorem C1_p_value_formula_and_range_witness :
    ∃ r, run_event_coincidence_analysis demoPanel "Outbreak" "Climatic" 3 0 = .ok r ∧
      r.p_value = ((r.sims.countP
          (fun x => decide (r.summary.coincidences ≤ x)) : ℚ) + 1) /
        (((3 : Nat) : ℚ) + 1) ∧
      1 / (((3 : Nat) : ℚ) + 1) ≤ r.p_value ∧ r.p_value ≤ 1 :=
  @C1_p_value_formula_and_range demoPanel "Outbreak" "Climatic"
    [some 1, some 0, some 1, none] [some 1, some 1, some 0, some 0] 3 0
    (by decide) rfl rfl

/-- C2: when either binarised series has total 0, the observed joint count is
0, every simulated joint count is 0, and the p-value is exactly 1. -/
theorem C2_total_zero_p_value_one {df : Panel} {a b : String}
    {ca cb : List (Option Int)} {N s : Nat}
    (ha : df.find? a = some ca) (hb : df.find? b = some cb)
    (hbinA : isBin (binarySeries ca)) (hbinB : isBin (binarySeries cb))
    (hzero : (binarySeries ca).sum = 0 ∨ (binarySeries cb).sum = 0) :
    ∃ r, run_event_coincidence_analysis df a b N s = .ok r ∧
      r.summary.coincidences = 0 ∧ (∀ x ∈ r.sims, x = 0) ∧ r.p_value = 1 := by
  have hobs : dotInt (binarySeries ca) (binarySeries cb) = 0 :=
    dot_zero_of_total_zero hbinA hbinB hzero (List.Perm.refl _)
  have hsims : ∀ x ∈ mcTrials (binarySeries ca) (binarySeries cb) N (rngInit s),
      x = 0 := by
    intro x hx
    obtain ⟨c, hperm, rfl⟩ := mcTrials_mem hx
    exact dot_zero_of_total_zero hbinA hbinB hzero hperm
  refine ⟨_, run_event_coincidence_analysis_eq N s ha hb, hobs, hsims, ?_⟩
  have hall : ∀ x ∈ mcTrials (binarySeries ca) (binarySeries cb) N (rngInit s),
      (fun x => decide (dotInt (binarySeries ca) (binarySeries cb) ≤ x)) x = true := by
    intro x hx
    have hx0 := hsims x hx
    simp [hx0, hobs]
  have hcount : (mcTrials (binarySeries ca) (binarySeries cb) N
      (rngInit s)).countP
      (fun x => decide (dotInt (binarySeries ca) (binarySeries cb) ≤ x)) = N := by
    rw [List.countP_eq_length.mpr hall]
    exact mcTrials_length (binarySeries ca) (binarySeries cb) N (rngInit s)
  dsimp only
  rw [hcount]
  have hpos : (0 : ℚ) < (N : ℚ) + 1 := by positivity
  exact div_self hpos.ne.symm

/-- Witness for C2: a panel whose base column has no 1-entries. -/
theorem C2_total_zero_p_value_one_witness :
    ∃ r, run_event_coincidence_analysis zeroPanel "Outbreak" "Climatic" 2 1 = .ok r ∧
      r.summary.coincidences = 0 ∧ (∀ x ∈ r.sims, x = 0) ∧ r.p_value = 1 :=
  @C2_total_zero_p_value_one zeroPanel "Outbreak" "Climatic"
    [some 0, none, some 0, some 0] [some 1, some 0, some 1, some 0] 2 1
    rfl rfl (by decide) (by decide) (Or.inl (by decide))

/-- C3 (code bug): with `simulations = 0` the engine does not fail fast with
an invalid-configuration error; it returns a result built from an empty null
distribution — `p_value` 1.0 and a NaN mean. -/
theorem C3_simulations_zero_returns_result :
    ∃ r, run_event_coincidence_analysis demoPanel "Outbreak" "Climatic" 0 42 = .ok r ∧
      r.sims = [] ∧ r.p_value = 1 ∧ r.expected = none := by
  refine ⟨_, run_event_coincidence_analysis_eq 0 42 rfl rfl, ?_, ?_, ?_⟩ <;>
    simp [mcTrials]

/-- C7: the observed joint count lies in `[0, min(total_A, total_B)]` and so
does every simulated joint count (each trial permutes column B, preserving
its total). -/
theorem C7_joint_and_null_bounds {df : Panel} {a b : String}
    {ca cb : List (Option Int)} {N s : Nat}
    (ha : df.find? a = some ca) (hb : df.find? b = some cb)
    (hbinA : isBin (binarySeries ca)) (hbinB : isBin (binarySeries cb)) :
    ∃ sm sims, compute_coincidence_summary df a b = .ok sm ∧
      monte_carlo_coincidences df a b N s = .ok sims ∧
      0 ≤ sm.coincidences ∧
      sm.coincidences ≤ min sm.totalA sm.totalB ∧
      ∀ x ∈ sims, 0 ≤ x ∧ x ≤ min sm.totalA sm.totalB := by
  refine ⟨_, _, compute_coincidence_summary_eq ha hb,
    monte_carlo_coincidences_eq N s ha hb, ?_, ?_, ?_⟩
  · exact dotInt_nonneg hbinA hbinB
  · exact le_min (dotInt_le_sum_left hbinA hbinB) (dotInt_le_sum_right hbinA hbinB)
  · intro x hx
    obtain ⟨c, hperm, rfl⟩ := mcTrials_mem hx
    have hbinc : isBin c := isBin_of_perm hperm hbinB
    refine ⟨dotInt_nonneg hbinA hbinc,
      le_min (dotInt_le_sum_left hbinA hbinc) ?_⟩
    have hle := dotInt_le_sum_right hbinA hbinc
    rwa [hperm.sum_eq] at hle

/-- Witness for C7 on the concrete demo panel. -/
theorem C7_joint_and_null_bounds_witness :
    ∃ sm sims, compute_coincidence_summary demoPanel "Outbreak" "Climatic" = .ok sm ∧
      monte_carlo_coincidences demoPanel "Outbreak" "Climatic" 2 0 = .ok sims ∧
      0 ≤ sm.coincidences ∧
      sm.coincidences ≤ min sm.totalA sm.totalB ∧
      ∀ x ∈ sims, 0 ≤ x ∧ x ≤ min sm.totalA sm.totalB :=
  @C7_joint_and_null_bounds demoPanel "Outbreak" "Climatic"
    [some 1, some 0, some 1, none] [some 1, some 1, some 0, some 0] 2 0
    rfl rfl (by decide) (by decide)

/-- Unfolding of `batch_event_coincidence` on an explicitly nonempty
`other_events` list. -/
theorem batch_event_coincidence_cons (df : Panel) (base e0 : String)
    (tl : List String) (N S : Nat) :
    batch_event_coincidence df base (some (e0 :: tl)) N S =
      batchLoop df base N
        ((e0 :: tl).zip (subSeeds (rngInit S) (e0 :: tl).length)) [] := rfl

/-- C5: when the batch orchestrator succeeds on a nonempty, duplicate-free
other-column list, each column's entry is exactly the pairwise analysis run
with the sub-seed drawn at that column's position in input order from the
master generator; and the sub-seed stream is not a copy of the master seed. -/
theorem C5_batch_matches_pairwise {df : Panel} {base : String}
    {events : List String} {N S : Nat} {m : List (String × ECAResult)}
    (hok : batch_event_coincidence df base (some events) N S = .ok m)
    (hne : events ≠ []) (hnd : events.Nodup) :
    (∀ j e sd, events.get? j = some e →
      (subSeeds (rngInit S) events.length).get? j = some sd →
      ∃ r, run_event_coincidence_analysis df base e N sd = .ok r ∧
        m.get? j = some (e, r)) ∧
    (∃ S0 : Nat, subSeeds (rngInit S0) 1 ≠ [S0]) := by
  constructor
  · obtain ⟨e0, tl, rfl⟩ : ∃ e0 tl, events = e0 :: tl := by
      cases events with
      | nil => exact absurd rfl hne
      | cons e0 tl => exact ⟨e0, tl, rfl⟩
    rw [batch_event_coincidence_cons] at hok
    have hseedlen : (subSeeds (rngInit S) (e0 :: tl).length).length =
        (e0 :: tl).length := subSeeds_length _ _
    have hmapfst : ((e0 :: tl).zip
        (subSeeds (rngInit S) (e0 :: tl).length)).map Prod.fst = e0 :: tl :=
      List.map_fst_zip _ _ (le_of_eq hseedlen.symm)
    obtain ⟨rs, hlen, hm, hidx⟩ := batchLoop_ok_structure df base N _ [] m hok
      (by rw [hmapfst]; exact hnd) (by simp)
    intro j e sd hej hsdj
    have hpair : ((e0 :: tl).zip
        (subSeeds (rngInit S) (e0 :: tl).length)).get? j = some (e, sd) :=
      (List.get?_zip_eq_some _ _ _ _).mpr ⟨hej, hsdj⟩
    obtain ⟨r, hrj, hrun⟩ := hidx j (e, sd) hpair
    refine ⟨r, hrun, ?_⟩
    rw [hm, List.nil_append, hmapfst]
    exact (List.get?_zip_eq_some _ _ _ _).mpr ⟨hej, hrj⟩
  · exact ⟨0, by decide⟩

/-- Witness for C5: a one-column batch on the concrete demo panel. -/
theorem C5_batch_matches_pairwise_witness :
    ∃ m, batch_event_coincidence demoPanel "Outbreak" (some ["Climatic"]) 2 0 =
        .ok m ∧
      ((∀ j e sd, (["Climatic"] : List String).get? j = some e →
        (subSeeds (rngInit 0) (["Climatic"] : List String).length).get? j = some sd →
        ∃ r, run_event_coincidence_analysis demoPanel "Outbreak" e 2 sd = .ok r ∧
          m.get? j = some (e, r)) ∧
      (∃ S0 : Nat, subSeeds (rngInit S0) 1 ≠ [S0])) := by
  obtain ⟨m, hm⟩ : ∃ m, batch_event_coincidence demoPanel "Outbreak"
      (some ["Climatic"]) 2 0 = .ok m := ⟨_, rfl⟩
  exact ⟨m, hm, C5_batch_matches_pairwise hm (by decide) (by decide)⟩

theorem length_dictInsert_ge (m : List (String × ECAResult)) (k : String)
    (v : ECAResult) : m.length ≤ (dictInsert m k v).length := by
  unfold dictInsert
  split <;> simp

theorem batchLoop_length_ge (df : Panel) (base : String) (N : Nat) :
    ∀ (pairs : List (String × Nat)) (acc m : List (String × ECAResult)),
      batchLoop df base N pairs acc = .ok m → acc.length ≤ m.length := by
  intro pairs
  induction pairs with
  | nil =>
    intro acc m h
    simp only [batchLoop, Except.ok.injEq] at h
    rw [h]
  | cons hd tl ih =>
    intro acc m h
    obtain ⟨e, sd⟩ := hd
    simp only [batchLoop] at h
    cases hrun : run_event_coincidence_analysis df base e N sd with
    | error err => rw [hrun] at h; exact absurd h (by simp)
    | ok r =>
      rw [hrun] at h
      dsimp only at h
      exact le_trans (length_dictInsert_ge acc e r) (ih _ m h)

theorem batchLoop_cons_ne_nil {df : Panel} {base : String} {N : Nat}
    {e : String} {sd : Nat} {rest : List (String × Nat)}
    {m : List (String × ECAResult)}
    (hok : batchLoop df base N ((e, sd) :: rest) [] = .ok m) : m ≠ [] := by
  simp only [batchLoop] at hok
  cases hrun : run_event_coincidence_analysis df base e N sd with
  | error err => rw [hrun] at hok; exact absurd hok (by simp)
  | ok r =>
    rw [hrun] at hok
    dsimp only at hok
    have h1 : (dictInsert [] e r).length ≤ m.length :=
      batchLoop_length_ge df base N rest _ m hok
    have h2 : dictInsert [] e r = [(e, r)] := rfl
    rw [h2] at h1
    intro hnil
    rw [hnil] at h1
    simp at h1

/-- Unfolding of `batch_event_coincidence` on the empty `other_events`
list: Python truthiness falls back to the non-base panel columns. -/
theorem batch_event_coincidence_empty_list (df : Panel) (base : String)
    (N S : Nat) :
    batch_event_coincidence df base (some []) N S =
      batchLoop df base N
        ((df.columnNames.filter (fun c => c ≠ base)).zip
          (subSeeds (rngInit S)
            (df.columnNames.filter (fun c => c ≠ base)).length)) [] := rfl

/-- C10 counterexample: on a panel whose only column is the base event,
`other_events = []` makes `batch_event_coincidence` return an *empty* batch
result, contradicting the claim that the result is never empty. -/
theorem C10_counterexample :
    batch_event_coincidence soloPanel "Outbreak" (some []) 5 0 = .ok [] := rfl

/-- C10 (amended): the empty `other_events` list is treated exactly like
passing no list at all — both fall back to comparing the base event against
every other panel column — and the batch result is nonempty whenever the
panel has a column other than the base event. -/
theorem C10_empty_list_falls_back (df : Panel) (base : String) (N S : Nat) :
    batch_event_coincidence df base (some []) N S =
      batch_event_coincidence df base none N S ∧
    (∀ m c, batch_event_coincidence df base (some []) N S = .ok m →
      c ∈ df.columnNames → c ≠ base → m ≠ []) := by
  constructor
  · rfl
  · intro m c hok hc hcb
    have hmem : c ∈ df.columnNames.filter (fun x => x ≠ base) := by
      simp only [List.mem_filter]
      exact ⟨hc, by simpa using hcb⟩
    obtain ⟨f, fs, hf⟩ : ∃ f fs,
        df.columnNames.filter (fun x => x ≠ base) = f :: fs := by
      cases hcase : df.columnNames.filter (fun x => x ≠ base) with
      | nil => rw [hcase] at hmem; simp at hmem
      | cons f fs => exact ⟨f, fs, rfl⟩
    rw [batch_event_coincidence_empty_list, hf] at hok
    simp only [List.length_cons, subSeeds, List.zip_cons_cons] at hok
    exact batchLoop_cons_ne_nil hok

/-- Witness for C10 (amended) on the concrete demo panel, which has one
column (`Climatic`) other than the base event. -/
theorem C10_empty_list_falls_back_witness :
    batch_event_coincidence demoPanel "Outbreak" (some []) 2 0 =
      batch_event_coincidence demoPanel "Outbreak" none 2 0 ∧
    (∃ m, batch_event_coincidence demoPanel "Outbreak" (some []) 2 0 = .ok m ∧
      m ≠ []) := by
  obtain ⟨m, hm⟩ : ∃ m,
      batch_event_coincidence demoPanel "Outbreak" (some []) 2 0 = .ok m :=
    ⟨_, rfl⟩
  refine ⟨(C10_empty_list_falls_back demoPanel "Outbreak" 2 0).1, m, hm, ?_⟩
  exact (C10_empty_list_falls_back demoPanel "Outbreak" 2 0).2 m "Climatic" hm
    (by decide) (by decide)
